import Mathlib

/-!
Verification development for the pica UWB emulator core
(`src/lib.rs`, `src/uwb_subsystem/session.rs`).

The Rust sources are shallowly embedded as executable Lean definitions:
`HashMap`s become association lists, machine integers become `Nat`/`Int`
with explicit reductions where overflow matters, panicking code
(`unwrap`, `assert!`, `todo!`, `unimplemented!`) returns `Option` with
`none` marking the panic. Parts of the repository that are referenced
from the two source files but are not included here (the PDL-generated
`uci_packets.rs`, `device.rs`, `position.rs`, `mac_address.rs`) are
modelled from the system specification; each such definition carries a
doc comment starting with `Modelled from the spec:`.
-/

/-- MAC address, a tagged value: `Short([u8;2])` or `Extended([u8;8])`.
The payload is kept as the numeric value of the bytes (big-endian),
which is the form `u16::from_be_bytes` produces in the ranging handler. -/
inductive MacAddress where
  | short (a : Nat)
  | extend (a : Nat)
deriving DecidableEq, Repr

/-- Modelled from the spec: `position.rs` is not under `src/`. A pose's
position component, integer millimetres (signed, fits in 16 bits). The
orientation component is not modelled; the angle computations that
depend on it are taken as a parameter (`AzEl`) below. -/
structure Position where
  x : Int
  y : Int
  z : Int
deriving DecidableEq, Repr

/-- Squared Euclidean distance between two positions, in mm^2. -/
def dist2 (a b : Position) : Int :=
  (b.x - a.x) ^ 2 + (b.y - a.y) ^ 2 + (b.z - a.z) ^ 2

/-- Nearest integer to the square root of a natural number:
`roundSqrt n = round (Real.sqrt n)`, computed with `Nat.sqrt`. -/
def roundSqrt (n : Nat) : Nat :=
  let s := Nat.sqrt n
  if n - s * s > s then s + 1 else s

/-- Modelled from the spec: `position.rs` is not under `src/`. The
distance component of `Position::compute_range_azimuth_elevation`:
`distance = round(norm(b.pos - a.pos))`, saturated to `u16::MAX`. -/
def relativeDistance (a b : Position) : Nat :=
  min (roundSqrt (dist2 a b).toNat) 65535

/-- The condition checked by `assert!(local.0 == remote.0)` in the
ranging handler and in the neighbor-update fan-out of `update_position`. -/
def distAssertOk (a b : Position) : Bool :=
  relativeDistance a b == relativeDistance b a

/-- Angle model: azimuth and elevation of `b` seen from `a`. The source
computes these with `f32` trigonometry in `position.rs` (not under
`src/`); no claim depends on their values, so they are passed as a
parameter to the handlers that embed them into packets. -/
def AzEl : Type := Position → Position → Int × Int

/-- Reinterpretation of an `i16` value as `u16` (Rust `as u16`). -/
def u16ofI16 (a : Int) : Nat :=
  (a % 65536).toNat

/-- Modelled from the spec: UCI status codes (`uci_packets.rs` is
generated code, not under `src/`). Only the codes used by the claims are
listed; numeric values follow the UCI convention. -/
inductive StatusCode where
  | ok
  | rejected
  | failed
  | syntaxError
  | invalidParam
  | unknownGid
  | unknownOid
  | commandRetry
  | sessionNotExist
  | sessionDuplicate
  | sessionActive
  | maxSessionsExceeded
deriving DecidableEq, Repr

/-- Modelled from the spec: numeric value of each status code. -/
def StatusCode.toU8 : StatusCode → Nat
  | .ok => 0x00
  | .rejected => 0x01
  | .failed => 0x02
  | .syntaxError => 0x03
  | .invalidParam => 0x04
  | .unknownGid => 0x07
  | .unknownOid => 0x08
  | .commandRetry => 0x0A
  | .sessionNotExist => 0x11
  | .sessionDuplicate => 0x12
  | .sessionActive => 0x13
  | .maxSessionsExceeded => 0x14

/-- UCI message type, bits 7..5 of header byte 0. -/
inductive MessageType where
  | command
  | response
  | notification
deriving DecidableEq, Repr

/-- Modelled from the spec: `MessageType::to_u8` (Command=1, Response=2,
Notification=3). -/
def MessageType.toU8 : MessageType → Nat
  | .command => 1
  | .response => 2
  | .notification => 3

/-- Modelled from the spec: `MessageType::from_u8`; values 0 and 4..7
are reserved and yield `none`. -/
def MessageType.fromU8 (n : Nat) : Option MessageType :=
  if n = 1 then some .command
  else if n = 2 then some .response
  else if n = 3 then some .notification
  else none

/-- Modelled from the spec: the recognized UCI group identifiers
(command taxonomy of the spec: Core, Session, Ranging, Vendor/Android,
Pica). -/
inductive GroupId where
  | core
  | sessionConfig
  | rangingSessionControl
  | vendorPica
  | vendorAndroid
deriving DecidableEq, Repr

/-- Modelled from the spec: `GroupId::from_u8`; any other group id is
unknown. -/
def GroupId.fromU8 (n : Nat) : Option GroupId :=
  if n = 0x0 then some .core
  else if n = 0x1 then some .sessionConfig
  else if n = 0x2 then some .rangingSessionControl
  else if n = 0x9 then some .vendorPica
  else if n = 0xC then some .vendorAndroid
  else none

/-- Modelled from the spec: the opcodes recognized inside each group
(spec command taxonomy; numeric values follow UCI conventions). No claim
depends on the exact sets; they only make the typed parser executable. -/
def knownOpcode (g : GroupId) (op : Nat) : Bool :=
  match g with
  | .core => op == 0 || op == 1 || op == 2 || op == 3 || op == 4 || op == 5
  | .sessionConfig =>
      op == 0 || op == 1 || op == 2 || op == 3 || op == 4 || op == 5 || op == 6 || op == 7
  | .rangingSessionControl => op == 0 || op == 1 || op == 3
  | .vendorAndroid => op == 0 || op == 1
  | .vendorPica => op == 0 || op == 1 || op == 2 || op == 3 || op == 4

/-- A parsed UCI packet: message type, packet-boundary flag, group id,
opcode and payload, decoded from the 4-byte header. -/
structure UciPacket where
  messageType : MessageType
  packetBoundaryFlag : Bool
  groupId : GroupId
  opcode : Nat
  payload : List Nat
deriving DecidableEq, Repr

/-- Modelled from the spec: `UciPacketPacket::parse` of the generated
`uci_packets.rs` (not under `src/`). Parsing succeeds when the frame is
complete (`length field = payload size`), the message type is not
reserved, the group id is recognized and the opcode belongs to the
group's taxonomy; otherwise it fails. -/
def uciPacketParse (bytes : List Nat) : Option UciPacket :=
  match bytes with
  | b0 :: b1 :: _b2 :: b3 :: payload =>
      match MessageType.fromU8 ((b0 >>> 5) % 8), GroupId.fromU8 (b0 % 16) with
      | some mt, some gid =>
          if payload.length = b3 ∧ knownOpcode gid (b1 % 64) then
            some ⟨mt, (b0 >>> 4) % 2 = 1, gid, b1 % 64, payload⟩
          else none
      | _, _ => none
  | _ => none

/-- Result of UCI packet parsing (`UciParseResult` in `lib.rs`). -/
inductive UciParseResult where
  | ok (packet : UciPacket)
  | err (response : List Nat)
  | skip
deriving DecidableEq, Repr

/-- The 5-byte error response crafted by `parse_uci_packet`:
`vec![(Response << 5) | group_id, opcode_id, 0, 1, status]`. -/
def mkErrResponse (b0 b1 : Nat) (status : StatusCode) : UciParseResult :=
  .err [(MessageType.toU8 .response <<< 5) ||| (b0 % 16), b1 % 64, 0, 1, status.toU8]

/-- Model of `parse_uci_packet` of `lib.rs`. On parse failure it reads
`bytes[0]` and `bytes[1]` (a panic when fewer than 2 bytes are present,
modelled by `none`), then synthesizes an error response for commands and
skips everything else; on parse success, non-command packets are
skipped (`packet.try_into()` to `UciCommandPacket` fails). -/
def parse_uci_packet (bytes : List Nat) : Option UciParseResult :=
  match uciPacketParse bytes with
  | some packet =>
      if packet.messageType = MessageType.command then some (.ok packet)
      else some .skip
  | none =>
      match bytes with
      | b0 :: b1 :: _ =>
          match MessageType.fromU8 ((b0 >>> 5) % 8), GroupId.fromU8 (b0 % 16) with
          | some MessageType.command, some _ => some (mkErrResponse b0 b1 .unknownOid)
          | some MessageType.command, none => some (mkErrResponse b0 b1 .unknownGid)
          | _, _ => some .skip
      | _ => none

theorem messageType_fromU8_command {n : Nat}
    (h : MessageType.fromU8 n = some MessageType.command) : n = 1 := by
  unfold MessageType.fromU8 at h
  split at h
  · assumption
  · split at h
    · simp at h
    · split at h
      · simp at h
      · simp at h

theorem uciPacketParse_messageType (b0 b1 : Nat) (rest : List Nat) (pkt : UciPacket)
    (h : uciPacketParse (b0 :: b1 :: rest) = some pkt) :
    MessageType.fromU8 ((b0 >>> 5) % 8) = some pkt.messageType := by
  cases rest with
  | nil => simp [uciPacketParse] at h
  | cons b2 rest2 =>
    cases rest2 with
    | nil => simp [uciPacketParse] at h
    | cons b3 payload =>
      cases hmt : MessageType.fromU8 ((b0 >>> 5) % 8) with
      | none => simp [uciPacketParse, hmt] at h
      | some mt =>
        cases hg : GroupId.fromU8 (b0 % 16) with
        | none => simp [uciPacketParse, hmt, hg] at h
        | some gid =>
          simp only [uciPacketParse, hmt, hg] at h
          split at h
          · injection h with h2
            rw [← h2]
          · cases h

/-- Claim C1: for every byte sequence (of at least the 2 header bytes the
handler reads) whose header is a Command (message type 1) that fails
typed parsing, `parse_uci_packet` returns an error response of exactly
5 bytes: byte 0 = `(Response << 5) | group_id` with the input's group id,
byte 1 = the input's opcode id, byte 2 = 0, byte 3 = 1, byte 4 =
`UNKNOWN_GID` if the group id is not a known `GroupId`, otherwise
`UNKNOWN_OID`; and for every such byte sequence whose header indicates a
Response, Notification, or reserved message type, it returns `Skip`. -/
theorem c1_parse_uci_packet_error_response (b0 b1 : Nat) (rest : List Nat) :
    ((b0 >>> 5) % 8 = 1 → uciPacketParse (b0 :: b1 :: rest) = none →
      parse_uci_packet (b0 :: b1 :: rest) = some (UciParseResult.err
        [(MessageType.toU8 .response <<< 5) ||| (b0 % 16), b1 % 64, 0, 1,
          StatusCode.toU8
            (if GroupId.fromU8 (b0 % 16) = none then .unknownGid else .unknownOid)]))
    ∧ ((b0 >>> 5) % 8 ≠ 1 →
      parse_uci_packet (b0 :: b1 :: rest) = some UciParseResult.skip) := by
  constructor
  · intro hmt hparse
    have hmt2 : MessageType.fromU8 ((b0 >>> 5) % 8) = some MessageType.command := by
      rw [hmt]; rfl
    cases hg : GroupId.fromU8 (b0 % 16) with
    | none => simp [parse_uci_packet, hparse, hmt2, hg, mkErrResponse]
    | some gid => simp [parse_uci_packet, hparse, hmt2, hg, mkErrResponse]
  · intro hmt
    cases hparse : uciPacketParse (b0 :: b1 :: rest) with
    | some pkt =>
      have hmt2 := uciPacketParse_messageType b0 b1 rest pkt hparse
      have hne : pkt.messageType ≠ MessageType.command := by
        intro hc
        rw [hc] at hmt2
        exact hmt (messageType_fromU8_command hmt2)
      simp [parse_uci_packet, hparse, hne]
    | none =>
      cases hmtv : MessageType.fromU8 ((b0 >>> 5) % 8) with
      | none => simp [parse_uci_packet, hparse, hmtv]
      | some mt =>
        have hne : mt ≠ MessageType.command := by
          intro hc
          rw [hc] at hmtv
          exact hmt (messageType_fromU8_command hmtv)
        cases mt with
        | command => exact absurd rfl hne
        | response =>
            cases hgv : GroupId.fromU8 (b0 % 16) <;>
              simp [parse_uci_packet, hparse, hmtv, hgv]
        | notification =>
            cases hgv : GroupId.fromU8 (b0 % 16) <;>
              simp [parse_uci_packet, hparse, hmtv, hgv]

/-- Claim C1 witness: a malformed Command for known group 1 (payload
length mismatch) yields the 5-byte `UNKNOWN_OID` response `0x41 0x00
0x00 0x01 0x08`, and a Response header yields `Skip`. -/
theorem c1_witness :
    (0x21 >>> 5) % 8 = 1 ∧
    uciPacketParse [0x21, 0x00, 0x00, 0x05] = none ∧
    parse_uci_packet [0x21, 0x00, 0x00, 0x05] =
      some (UciParseResult.err [0x41, 0x00, 0x00, 0x01, 0x08]) ∧
    parse_uci_packet [0x41, 0x00] = some UciParseResult.skip := by
  refine ⟨by decide, by decide, ?_, ?_⟩
  · exact (c1_parse_uci_packet_error_response 0x21 0x00 [0x00, 0x05]).1
      (by decide) (by decide)
  · exact (c1_parse_uci_packet_error_response 0x41 0x00 []).2 (by decide)

/-- Session state (`SessionState` in the generated `uci_packets.rs`). -/
inductive SessionState where
  | sessionStateDeinit
  | sessionStateInit
  | sessionStateIdle
  | sessionStateActive
deriving DecidableEq, Repr

/-- Session type (`SessionType`); only the default matters here. -/
inductive SessionType where
  | firaRangingSession
  | firaDataTransferSession
deriving DecidableEq, Repr

/-- Reason code carried by session status notifications. -/
inductive ReasonCode where
  | stateChangeWithSessionManagementCommands
  | maxRangingRoundRetryCountReached
deriving DecidableEq, Repr

/-- Model of `Session` of `session.rs`. `sequence_number` is a `usize`; increments
reduce modulo `2^64`. `ranging_task` (a tokio join handle) is not
represented. `dst_mac_addresses` is modelled from the spec: the
destination MAC list of the session's app config, read by
`get_dst_mac_addresses` (its storage is not under `src/`). -/
structure Session where
  state : SessionState
  id : Nat
  session_type : SessionType
  sequence_number : Nat
  ranging_interval : Nat
  dst_mac_addresses : List MacAddress
deriving DecidableEq, Repr

/-- Model of `Session::default()` of `session.rs`. -/
def Session.default : Session :=
  { state := .sessionStateDeinit
    id := 0
    session_type := .firaRangingSession
    sequence_number := 0
    ranging_interval := 0
    dst_mac_addresses := [] }

/-- Lookup in an association list (model of `HashMap::get`). -/
def alookup {κ α : Type} [DecidableEq κ] : List (κ × α) → κ → Option α
  | [], _ => none
  | e :: t, k => if e.1 = k then some e.2 else alookup t k

/-- Pointwise update of an association list at one key. -/
def aupdate {κ α : Type} [DecidableEq κ] : List (κ × α) → κ → (α → α) → List (κ × α)
  | [], _, _ => []
  | e :: t, k, f =>
      if e.1 = k then (e.1, f e.2) :: aupdate t k f else e :: aupdate t k f

/-- Removal from an association list (model of `HashMap::remove`). -/
def aremove {κ α : Type} [DecidableEq κ] : List (κ × α) → κ → List (κ × α)
  | [], _ => []
  | e :: t, k => if e.1 = k then aremove t k else e :: aremove t k

/-- Model of `ShortAddressTwoWayRangingMeasurement` of the generated packets:
the fields filled by the ranging handler. -/
structure ShortAddressTwoWayRangingMeasurement where
  mac_address : Nat
  status : StatusCode
  nlos : Nat
  distance : Nat
  aoa_azimuth : Nat
  aoa_azimuth_fom : Nat
  aoa_elevation : Nat
  aoa_elevation_fom : Nat
  aoa_destination_azimuth : Nat
  aoa_destination_azimuth_fom : Nat
  aoa_destination_elevation : Nat
  aoa_destination_elevation_fom : Nat
  slot_index : Nat
deriving DecidableEq, Repr

/-- Outbound packets enqueued by the handlers under verification
(typed responses and notifications of the generated `uci_packets.rs`). -/
inductive Packet where
  | sessionInitRsp (status : StatusCode)
  | sessionDeinitRsp (status : StatusCode)
  | sessionSetAppConfigRsp (status : StatusCode) (cfg_status : List (Nat × StatusCode))
  | sessionStatusNtf (session_id : Nat) (session_state : SessionState)
      (reason_code : ReasonCode)
  | shortMacTwoWayRangeDataNtf (sequence_number : Nat) (session_id : Nat)
      (rcr_indicator : Nat) (current_ranging_interval : Nat)
      (two_way_ranging_measurements : List ShortAddressTwoWayRangingMeasurement)
deriving DecidableEq, Repr

/-- Modelled from the spec: the default MAC a device gets on connect is
derived from its handle (`mac_address.rs` is not under `src/`); taken as
the handle value reduced to a short (2-byte) address. -/
def macOfHandle (h : Nat) : MacAddress :=
  .short (h % 65536)

/-- The per-connection device record (`device.rs` is not under `src/`;
the fields are those the spec's data model lists and the handlers under
`src/` read: identity, pose, session table). -/
structure Device where
  mac_address : MacAddress
  position : Position
  sessions : List (Nat × Session)
deriving DecidableEq, Repr

/-- Modelled from the spec: `Device::new` — default MAC derived from the
handle, zero pose, empty session table. -/
def Device.new (handle : Nat) : Device :=
  { mac_address := macOfHandle handle
    position := ⟨0, 0, 0⟩
    sessions := [] }

/-- Modelled from the spec: `Device::add_session` (`device.rs` is not
under `src/`). A duplicate session id is rejected with
`SESSION_DUPLICATE`; a device accepts at most `MAX_SESSION` (= 255)
sessions, creation of a 256th returns `MAX_SESSIONS_EXCEEDED`. -/
def Device.add_session (dev : Device) (s : Session) : Device × StatusCode :=
  if (alookup dev.sessions s.id).isSome then (dev, .sessionDuplicate)
  else if dev.sessions.length ≥ 255 then (dev, .maxSessionsExceeded)
  else ({ dev with sessions := dev.sessions ++ [(s.id, s)] }, .ok)

/-- The fresh session built by `session_init`: `Session::default()` with
state `Init` and the command's id and type. -/
def mkInitSession (session_id : Nat) (session_type : SessionType) : Session :=
  { Session.default with
      state := .sessionStateInit
      id := session_id
      session_type := session_type }

/-- Model of `Pica::session_init` of `session.rs`, at the device level: create a
session in state `Init`, `add_session`, respond with its status, and
notify `(session_id, Init, StateChangeWithSessionManagementCommands)`
exactly when the status is OK. Returns the updated device and the
packets enqueued, in order. -/
def session_init (dev : Device) (session_id : Nat) (session_type : SessionType) :
    Device × List Packet :=
  let r := dev.add_session (mkInitSession session_id session_type)
  (r.1, [Packet.sessionInitRsp r.2] ++
    (if r.2 = StatusCode.ok then
      [Packet.sessionStatusNtf session_id .sessionStateInit
        .stateChangeWithSessionManagementCommands]
    else []))

/-- Model of `Pica::session_deinit` of `session.rs`, at the device level:
remove the session (status OK when it was present, `SESSION_NOT_EXIST`
otherwise), respond, and notify `Deinit` exactly when the status is OK. -/
def session_deinit (dev : Device) (session_id : Nat) : Device × List Packet :=
  match alookup dev.sessions session_id with
  | some _ =>
      ({ dev with sessions := aremove dev.sessions session_id },
        [Packet.sessionDeinitRsp .ok,
          Packet.sessionStatusNtf session_id .sessionStateDeinit
            .stateChangeWithSessionManagementCommands])
  | none => (dev, [Packet.sessionDeinitRsp .sessionNotExist])

/-- The `(status, session_state)` pair computed by
`Pica::session_set_app_config` together with the session-table mutation:
a session in state `Init` moves to `Idle` with status OK; any other
existing session yields `SESSION_ACTIVE` without mutation; a missing
session yields `SESSION_NOT_EXIST`. -/
def sessionSetAppConfigOutcome (dev : Device) (session_id : Nat) :
    StatusCode × SessionState × Device :=
  match alookup dev.sessions session_id with
  | some session =>
      if session.state = SessionState.sessionStateInit then
        (.ok, .sessionStateIdle,
          { dev with sessions := aupdate dev.sessions session_id (fun s => { s with state := .sessionStateIdle }) })
      else (.sessionActive, .sessionStateActive, dev)
  | none => (.sessionNotExist, .sessionStateDeinit, dev)

/-- Model of `Pica::session_set_app_config` of `session.rs`, at the device level.
NOTE (faithful to the source): the response is built with
`status: StatusCode::UciStatusOk` hardcoded — the computed status only
gates the notification. -/
def session_set_app_config (dev : Device) (session_id : Nat) : Device × List Packet :=
  let r := sessionSetAppConfigOutcome dev session_id
  (r.2.2, [Packet.sessionSetAppConfigRsp .ok []] ++
    (if r.1 = StatusCode.ok then
      [Packet.sessionStatusNtf session_id r.2.1
        .stateChangeWithSessionManagementCommands]
    else []))

/-- Model of `Pica::session_get_app_config` of `session.rs`: the body is
`todo!()`, so invoking the handler panics unconditionally (`none`). -/
def session_get_app_config (_dev : Device) (_session_id : Nat) :
    Option (Device × List Packet) :=
  none

/-- Model of `Pica::session_update_controller_multicast_list` of `session.rs`:
the body is `todo!()`, so invoking the handler panics unconditionally
(`none`). -/
def session_update_controller_multicast_list (_dev : Device) (_session_id : Nat) :
    Option (Device × List Packet) :=
  none

/-- Category tag of an entity in the world (`web::Category`). -/
inductive Category where
  | uci
  | anchor
deriving DecidableEq, Repr

/-- Model of `web::Device`: the (category, mac, position) triple carried by world
events. -/
structure WebDevice where
  category : Category
  mac_address : MacAddress
  position : Position
deriving DecidableEq, Repr

/-- Model of `PicaEvent` of `lib.rs`: the world events broadcast to observers. -/
inductive PicaEvent where
  | deviceAdded (device : WebDevice)
  | deviceRemoved (device : WebDevice)
  | deviceUpdated (device : WebDevice)
  | neighborUpdated (source_device : WebDevice) (destination_device : WebDevice)
      (distance : Nat) (azimuth : Int) (elevation : Int)
deriving DecidableEq, Repr

/-- Model of `PicaCommandError` of `lib.rs` (the channel-failure payloads are not
modelled). -/
inductive PicaCommandError where
  | addAnchorFailed (mac : MacAddress)
  | deviceNotFound (mac : MacAddress)
  | sendStatusFailed
  | sendCmdRspFailed
deriving DecidableEq, Repr

/-- Model of `PicaCommandStatus` of `lib.rs`. -/
inductive PicaCommandStatus where
  | ok
  | error (err : PicaCommandError)
deriving DecidableEq, Repr

/-- Model of `Anchor` of `lib.rs`: a passive peer. -/
structure Anchor where
  mac_address : MacAddress
  position : Position
deriving DecidableEq, Repr

/-- The orchestrator's world (`Pica` of `lib.rs`): device table, anchor
table, handle counter. The channels (`rx`, `tx`, `event_tx`) and the
pcapng directory are connection plumbing and are not part of the state
the claims quantify over; events and packets are returned explicitly. -/
structure Pica where
  devices : List (Nat × Device)
  anchors : List (MacAddress × Anchor)
  counter : Nat
deriving DecidableEq, Repr

/-- The empty world (`Pica::new`). -/
def picaEmpty : Pica := ⟨[], [], 0⟩

/-- A fixed angle model used by concrete evaluations; any function of
this type works for the theorems, which are parametric in it. -/
def azelZero : AzEl := fun _ _ => (0, 0)

/-- Model of `self.devices.iter().any(|(_, device)| device.mac_address == mac)`. -/
def anyDeviceMac : List (Nat × Device) → MacAddress → Bool
  | [], _ => false
  | e :: t, mac => if e.2.mac_address = mac then true else anyDeviceMac t mac

/-- Model of `Pica::get_category` of `lib.rs`. -/
def get_category (p : Pica) (mac : MacAddress) : Option Category :=
  if (alookup p.anchors mac).isSome then some .anchor
  else if anyDeviceMac p.devices mac then some .uci
  else none

/-- Model of `Pica::disconnect` of `lib.rs`: when the handle is present, emit
`DeviceRemoved` and remove the entry; otherwise only log the error. -/
def disconnect (p : Pica) (device_handle : Nat) : Pica × List PicaEvent :=
  match alookup p.devices device_handle with
  | some device =>
      ({ p with devices := aremove p.devices device_handle },
        [PicaEvent.deviceRemoved ⟨.uci, device.mac_address, device.position⟩])
  | none => (p, [])

/-- Model of `Pica::create_anchor` of `lib.rs`. `none` models a failure of the
`assert!(self.anchors.insert(..).is_none())`; the event is emitted
before the insertion. -/
def create_anchor (p : Pica) (mac : MacAddress) (position : Position) :
    Option (Pica × List PicaEvent × PicaCommandStatus) :=
  if (get_category p mac).isSome then
    some (p, [], .error (.addAnchorFailed mac))
  else if (alookup p.anchors mac).isSome then none
  else
    some ({ p with anchors := p.anchors ++ [(mac, ⟨mac, position⟩)] },
      [PicaEvent.deviceAdded ⟨.anchor, mac, position⟩], .ok)

/-- Model of `Pica::connect` of `lib.rs`, restricted to its world mutation: a
fresh handle is drawn from the counter, a device with the handle-derived
default MAC and zero pose is inserted, and `DeviceAdded` is emitted
(socket and task spawning are connection plumbing). -/
def connect (p : Pica) : Pica × List PicaEvent :=
  let device_handle := p.counter
  let device := Device.new device_handle
  ({ devices := p.devices ++ [(device_handle, device)]
     anchors := p.anchors
     counter := p.counter + 1 },
    [PicaEvent.deviceAdded ⟨.uci, device.mac_address, device.position⟩])

/-- The `(distance, azimuth, elevation)` triple of
`compute_range_azimuth_elevation`, with the angle pair supplied by the
angle model. -/
def relativeTriple (azel : AzEl) (a b : Position) : Nat × Int × Int :=
  (relativeDistance a b, azel a b)

/-- The `ShortAddressTwoWayRangingMeasurement` literal pushed by the
ranging handler for one resolved anchor. -/
def mkMeasurement (address : Nat) (localT remoteT : Nat × Int × Int) :
    ShortAddressTwoWayRangingMeasurement :=
  { mac_address := address
    status := .ok
    nlos := 0
    distance := localT.1
    aoa_azimuth := u16ofI16 localT.2.1
    aoa_azimuth_fom := 100
    aoa_elevation := u16ofI16 localT.2.2
    aoa_elevation_fom := 100
    aoa_destination_azimuth := u16ofI16 remoteT.2.1
    aoa_destination_azimuth_fom := 100
    aoa_destination_elevation := u16ofI16 remoteT.2.2
    aoa_destination_elevation_fom := 100
    slot_index := 0 }

/-- The measurement loop of `Pica::ranging`: for each destination MAC,
a MAC resolving to an anchor contributes a measurement; the
`assert!(local.0 == remote.0)` and the `unimplemented!()` for extended
addresses are panics (`none`); any MAC that does not resolve to an
anchor (including MACs of live UCI devices) is skipped. -/
def buildMeasurements (azel : AzEl) (anchors : List (MacAddress × Anchor))
    (devicePosition : Position) :
    List MacAddress → Option (List ShortAddressTwoWayRangingMeasurement)
  | [] => some []
  | mac :: rest =>
      match alookup anchors mac with
      | none => buildMeasurements azel anchors devicePosition rest
      | some anchor =>
          if distAssertOk devicePosition anchor.position then
            match mac with
            | .short address =>
                (buildMeasurements azel anchors devicePosition rest).map
                  (fun ms =>
                    mkMeasurement address
                      (relativeTriple azel devicePosition anchor.position)
                      (relativeTriple azel anchor.position devicePosition) :: ms)
            | .extend _ => none
          else none

/-- The `usize` counter arithmetic wraps at `2^64`. -/
def USIZE_LIMIT : Nat := 2 ^ 64

/-- The final mutation of `Pica::ranging`:
`session.sequence_number += 1` (wrapping `usize` arithmetic). -/
def incrementSequenceNumber (p : Pica) (device_handle session_id : Nat) : Pica :=
  { p with devices :=
      aupdate p.devices device_handle (fun dev =>
        { dev with sessions :=
            aupdate dev.sessions session_id (fun s =>
              { s with sequence_number := (s.sequence_number + 1) % USIZE_LIMIT }) }) }

/-- Model of `Pica::ranging` of `lib.rs`. The device and session lookups are
`unwrap()`ed (a panic, `none`, when either is missing); the session
state is not inspected. On success the handler enqueues one
`ShortMacTwoWayRangeDataNtf` carrying the session's current
`sequence_number` and then increments the counter. -/
def ranging (azel : AzEl) (p : Pica) (device_handle session_id : Nat) :
    Option (Pica × Packet) :=
  match alookup p.devices device_handle with
  | none => none
  | some device =>
      match alookup device.sessions session_id with
      | none => none
      | some session =>
          (buildMeasurements azel p.anchors device.position
              session.dst_mac_addresses).map
            (fun measurements =>
              (incrementSequenceNumber p device_handle session_id,
                Packet.shortMacTwoWayRangeDataNtf session.sequence_number
                  session_id 0 0 measurements))

/-- The `update_neighbors` fan-out of `Pica::update_position`: for every
other entity, two `NeighborUpdated` events guarded by
`assert!(local.0 == remote.0)` (`none` on assertion failure). Faithful to
the source, the supplied `category` is used for both the source and the
destination `web::Device` of each event. -/
def neighborUpdateEvents (azel : AzEl) (mac : MacAddress) (position : Position)
    (category : Category) :
    List (MacAddress × Position) → Option (List PicaEvent)
  | [] => some []
  | (dmac, dpos) :: rest =>
      if mac = dmac then neighborUpdateEvents azel mac position category rest
      else if distAssertOk position dpos then
        (neighborUpdateEvents azel mac position category rest).map
          (fun evs =>
            PicaEvent.neighborUpdated ⟨category, mac, position⟩ ⟨category, dmac, dpos⟩
              (relativeDistance position dpos) (azel position dpos).1
              (azel position dpos).2 ::
            PicaEvent.neighborUpdated ⟨category, dmac, dpos⟩ ⟨category, mac, position⟩
              (relativeDistance dpos position) (azel dpos position).1
              (azel dpos position).2 :: evs)
      else none

/-- Model of `Pica::update_position` of `lib.rs`: an unknown MAC is a
`DeviceNotFound` error; otherwise a `DeviceUpdated` event followed by
the neighbor fan-out over devices (category Uci) then anchors (category
Anchor). `none` models an `assert!` panic. -/
def update_position (azel : AzEl) (p : Pica) (mac : MacAddress)
    (position : Position) : Option (Except PicaCommandError (List PicaEvent)) :=
  match get_category p mac with
  | none => some (.error (.deviceNotFound mac))
  | some category =>
      match neighborUpdateEvents azel mac position Category.uci
          (p.devices.map (fun e => (e.2.mac_address, e.2.position))),
        neighborUpdateEvents azel mac position Category.anchor
          (p.anchors.map (fun e => (e.2.mac_address, e.2.position))) with
      | some devEvents, some anchorEvents =>
          some (.ok (PicaEvent.deviceUpdated ⟨category, mac, position⟩ ::
            (devEvents ++ anchorEvents)))
      | _, _ => none

theorem alookup_aremove_self {κ α : Type} [DecidableEq κ] (l : List (κ × α)) (k : κ) :
    alookup (aremove l k) k = none := by
  induction l with
  | nil => rfl
  | cons e t ih =>
    simp only [aremove]
    split
    · exact ih
    next he =>
      simp only [alookup]
      rw [if_neg he]
      exact ih

theorem alookup_aremove_ne {κ α : Type} [DecidableEq κ] (l : List (κ × α)) (k k2 : κ)
    (h : k2 ≠ k) : alookup (aremove l k) k2 = alookup l k2 := by
  induction l with
  | nil => rfl
  | cons e t ih =>
    simp only [aremove]
    split
    next he =>
      rw [ih]
      simp only [alookup]
      rw [if_neg (fun h2 => h (he.symm.trans h2).symm)]
    next he =>
      simp only [alookup]
      by_cases h2 : e.1 = k2
      · rw [if_pos h2, if_pos h2]
      · rw [if_neg h2, if_neg h2]
        exact ih

theorem alookup_aupdate_self {κ α : Type} [DecidableEq κ] (l : List (κ × α)) (k : κ)
    (f : α → α) : alookup (aupdate l k f) k = (alookup l k).map f := by
  induction l with
  | nil => rfl
  | cons e t ih =>
    simp only [aupdate]
    split
    next he =>
      simp only [alookup]
      rw [if_pos he, if_pos he]
      rfl
    next he =>
      simp only [alookup]
      rw [if_neg he, if_neg he]
      exact ih

theorem alookup_aupdate_ne {κ α : Type} [DecidableEq κ] (l : List (κ × α)) (k k2 : κ)
    (f : α → α) (h : k2 ≠ k) :
    alookup (aupdate l k f) k2 = alookup l k2 := by
  induction l with
  | nil => rfl
  | cons e t ih =>
    simp only [aupdate]
    split
    next he =>
      simp only [alookup]
      rw [if_neg (fun h2 => h (he.symm.trans h2).symm),
        if_neg (fun h2 => h (he.symm.trans h2).symm)]
      exact ih
    next he =>
      simp only [alookup]
      by_cases h2 : e.1 = k2
      · rw [if_pos h2, if_pos h2]
      · rw [if_neg h2, if_neg h2]
        exact ih

theorem alookup_append {κ α : Type} [DecidableEq κ] (l1 l2 : List (κ × α)) (k : κ) :
    alookup (l1 ++ l2) k =
      if (alookup l1 k).isSome then alookup l1 k else alookup l2 k := by
  induction l1 with
  | nil => simp [alookup]
  | cons e t ih =>
    simp only [List.cons_append, alookup]
    by_cases he : e.1 = k
    · simp [he]
    · simp only [if_neg he]
      exact ih

/-- Claim C10: processing `Disconnect(handle)` for a handle absent from
the device table is a world-level no-op (device table, anchor table and
handle counter unchanged, no event); for a present handle exactly one
`DeviceRemoved` event is emitted and only that device's entry is
removed. -/
theorem c10_disconnect_behaviour (p : Pica) (handle : Nat) :
    (alookup p.devices handle = none → disconnect p handle = (p, [])) ∧
    (∀ device, alookup p.devices handle = some device →
      (disconnect p handle).2 =
        [PicaEvent.deviceRemoved ⟨Category.uci, device.mac_address, device.position⟩] ∧
      (disconnect p handle).1.anchors = p.anchors ∧
      (disconnect p handle).1.counter = p.counter ∧
      alookup (disconnect p handle).1.devices handle = none ∧
      ∀ h2, h2 ≠ handle →
        alookup (disconnect p handle).1.devices h2 = alookup p.devices h2) := by
  constructor
  · intro hnone
    simp [disconnect, hnone]
  · intro device hsome
    refine ⟨by simp [disconnect, hsome], by simp [disconnect, hsome],
      by simp [disconnect, hsome], ?_, ?_⟩
    · simp only [disconnect, hsome]
      exact alookup_aremove_self p.devices handle
    · intro h2 hne
      simp only [disconnect, hsome]
      exact alookup_aremove_ne p.devices handle h2 hne

/-- Claim C10 witness: disconnecting handle 7 from the empty world is a
no-op, and disconnecting handle 0 from a world holding one fresh device
removes exactly that device and emits one `DeviceRemoved`. -/
theorem c10_witness :
    disconnect picaEmpty 7 = (picaEmpty, []) ∧
    (disconnect ⟨[(0, Device.new 0)], [], 1⟩ 0).2 =
      [PicaEvent.deviceRemoved ⟨Category.uci, MacAddress.short 0, ⟨0, 0, 0⟩⟩] ∧
    alookup (disconnect ⟨[(0, Device.new 0)], [], 1⟩ 0).1.devices 0 = none := by
  refine ⟨(c10_disconnect_behaviour picaEmpty 7).1 rfl, ?_, ?_⟩
  · have h := ((c10_disconnect_behaviour ⟨[(0, Device.new 0)], [], 1⟩ 0).2
      (Device.new 0) rfl).1
    exact h
  · exact ((c10_disconnect_behaviour ⟨[(0, Device.new 0)], [], 1⟩ 0).2
      (Device.new 0) rfl).2.2.2.1

/-- A session in state `Idle` (not `Active`) with an empty destination
list. -/
def c2SessionIdle : Session :=
  { Session.default with
      state := .sessionStateIdle
      id := 1 }

/-- A world with one device whose session 1 is `c2SessionIdle`. -/
def c2PicaIdle : Pica :=
  ⟨[(0, ⟨.short 1, ⟨0, 0, 0⟩, [(1, c2SessionIdle)]⟩)], [], 1⟩

/-- Claim C2 (code bug evidence): `Pica::ranging` panics (`unwrap()` on
`None`, modelled by `none`) when the device handle is missing from the
device table, instead of dropping the message silently; and it emits the
range-data notification even when the session is not in state `Active`
(here: `Idle`), instead of dropping. -/
theorem c2_ranging_panics_or_ignores_state :
    ranging azelZero picaEmpty 0 0 = none ∧
    ranging azelZero c2PicaIdle 0 1 =
      some (incrementSequenceNumber c2PicaIdle 0 1,
        Packet.shortMacTwoWayRangeDataNtf 0 1 0 0 []) :=
  ⟨rfl, rfl⟩

/-- Claim C3 (code bug evidence): `session_set_app_config` computes the
outcome status (`SESSION_NOT_EXIST` here, on a device with no sessions)
but the response it enqueues carries the hardcoded status OK. -/
theorem c3_response_status_hardcoded_ok :
    (sessionSetAppConfigOutcome (Device.new 0) 1).1 = StatusCode.sessionNotExist ∧
    (session_set_app_config (Device.new 0) 1).2 =
      [Packet.sessionSetAppConfigRsp .ok []] :=
  ⟨rfl, rfl⟩

/-- Claim C9 counterexample: at a concrete input, neither stub handler
returns a response — both bodies are `todo!()`, which panics (modelled
by `none`), so no `OK` response with an empty configuration list is
produced and the orchestrator does crash. -/
theorem c9_counterexample :
    session_get_app_config (Device.new 0) 0 = none ∧
    session_update_controller_multicast_list (Device.new 0) 0 = none :=
  ⟨rfl, rfl⟩

/-- Claim C9 (amended): `session_get_app_config` and
`session_update_controller_multicast_list` are unimplemented stubs: for
every device and session id they panic (`todo!()`, modelled by `none`)
and return no response. -/
theorem c9_stub_handlers_always_panic (dev : Device) (session_id : Nat) :
    session_get_app_config dev session_id = none ∧
    session_update_controller_multicast_list dev session_id = none :=
  ⟨rfl, rfl⟩

theorem dist2_symm (a b : Position) : dist2 a b = dist2 b a := by
  unfold dist2
  ring

theorem relativeDistance_symm (a b : Position) :
    relativeDistance a b = relativeDistance b a := by
  unfold relativeDistance
  rw [dist2_symm]

theorem distAssertOk_true (a b : Position) : distAssertOk a b = true := by
  simp [distAssertOk, relativeDistance_symm a b]

/-- Claim C4 (amended): a ranging tick on an existing session (with a
successfully built measurement list) emits one `ShortMacTwoWayRangeDataNtf`
carrying the session's pre-tick `sequence_number` and then stores
`(sequence_number + 1) % 2^64` (wrapping `usize` arithmetic); the
sequence numbers of successive notifications are therefore strictly
increasing as long as the counter does not wrap. -/
theorem c4_ranging_sequence_number (azel : AzEl) (p : Pica)
    (device_handle session_id : Nat) (device : Device) (session : Session)
    (ms : List ShortAddressTwoWayRangingMeasurement)
    (hdev : alookup p.devices device_handle = some device)
    (hsess : alookup device.sessions session_id = some session)
    (hms : buildMeasurements azel p.anchors device.position
      session.dst_mac_addresses = some ms) :
    ranging azel p device_handle session_id =
      some (incrementSequenceNumber p device_handle session_id,
        Packet.shortMacTwoWayRangeDataNtf session.sequence_number session_id 0 0 ms) ∧
    (alookup (incrementSequenceNumber p device_handle session_id).devices
        device_handle).bind (fun d => alookup d.sessions session_id) =
      some { session with
        sequence_number := (session.sequence_number + 1) % USIZE_LIMIT } ∧
    (session.sequence_number + 1 < USIZE_LIMIT →
      session.sequence_number < (session.sequence_number + 1) % USIZE_LIMIT) := by
  refine ⟨?_, ?_, ?_⟩
  · simp [ranging, hdev, hsess, hms]
  · unfold incrementSequenceNumber
    simp only []
    rw [alookup_aupdate_self, hdev]
    simp only [Option.map_some', Option.some_bind]
    rw [alookup_aupdate_self, hsess]
    rfl
  · intro h
    rw [Nat.mod_eq_of_lt h]
    exact Nat.lt_succ_self _

/-- A session in state `Active` with sequence counter 5 and no
destinations, for the C4 witness. -/
def c4WitnessSession : Session :=
  { Session.default with
      state := .sessionStateActive
      id := 1
      sequence_number := 5 }

/-- The device holding `c4WitnessSession`. -/
def c4WitnessDevice : Device :=
  ⟨.short 1, ⟨0, 0, 0⟩, [(1, c4WitnessSession)]⟩

/-- The world holding `c4WitnessDevice` at handle 0. -/
def c4WitnessPica : Pica :=
  ⟨[(0, c4WitnessDevice)], [], 1⟩

/-- Claim C4 witness: a tick on the concrete world emits sequence
number 5 and stores 6. -/
theorem c4_witness :
    ranging azelZero c4WitnessPica 0 1 =
      some (incrementSequenceNumber c4WitnessPica 0 1,
        Packet.shortMacTwoWayRangeDataNtf 5 1 0 0 []) ∧
    (alookup (incrementSequenceNumber c4WitnessPica 0 1).devices 0).bind
        (fun d => alookup d.sessions 1) =
      some { c4WitnessSession with sequence_number := 6 } := by
  have h := c4_ranging_sequence_number azelZero c4WitnessPica 0 1
    c4WitnessDevice c4WitnessSession [] rfl rfl rfl
  exact ⟨h.1, h.2.1⟩

/-- A session whose `usize` sequence counter sits at `2^64 - 1`,
reachable after `2^64 - 1` ticks. -/
def c4MaxSession : Session :=
  { Session.default with
      state := .sessionStateActive
      id := 1
      sequence_number := USIZE_LIMIT - 1 }

/-- The device holding `c4MaxSession`. -/
def c4MaxDevice : Device :=
  ⟨.short 1, ⟨0, 0, 0⟩, [(1, c4MaxSession)]⟩

/-- The world holding `c4MaxDevice` at handle 0. -/
def c4MaxPica : Pica :=
  ⟨[(0, c4MaxDevice)], [], 1⟩

/-- The world after one ranging tick on `c4MaxPica`. -/
def c4MaxPicaAfter : Pica :=
  ((ranging azelZero c4MaxPica 0 1).map Prod.fst).getD picaEmpty

/-- Sequence number carried by a range-data notification. -/
def ntfSequenceNumber : Packet → Option Nat
  | .shortMacTwoWayRangeDataNtf sequence_number _ _ _ _ => some sequence_number
  | _ => none

/-- Claim C4 counterexample: two successive ticks of one session carry
sequence numbers `2^64 - 1` and then `0`, so successive range-data
notifications are not strictly increasing (the wrapping increment the
claim itself stipulates defeats the claimed strict monotonicity at the
wrap). -/
theorem c4_counterexample :
    (ranging azelZero c4MaxPica 0 1).bind (fun r => ntfSequenceNumber r.2) =
      some (USIZE_LIMIT - 1) ∧
    (ranging azelZero c4MaxPicaAfter 0 1).bind (fun r => ntfSequenceNumber r.2) =
      some 0 ∧
    0 < USIZE_LIMIT - 1 := by
  refine ⟨rfl, rfl, by decide⟩

/-- The measurement contributed by one destination MAC: a MAC whose
anchor lookup succeeds and which is a short address yields the
measurement literal; everything else yields nothing. -/
def measurementFor (azel : AzEl) (anchors : List (MacAddress × Anchor))
    (devicePosition : Position) (mac : MacAddress) :
    Option ShortAddressTwoWayRangingMeasurement :=
  match alookup anchors mac with
  | none => none
  | some anchor =>
      match mac with
      | .short address =>
          some (mkMeasurement address
            (relativeTriple azel devicePosition anchor.position)
            (relativeTriple azel anchor.position devicePosition))
      | .extend _ => none

theorem buildMeasurements_eq_filterMap (azel : AzEl)
    (anchors : List (MacAddress × Anchor)) (devicePosition : Position)
    (dsts : List MacAddress)
    (hshort : ∀ mac ∈ dsts, (alookup anchors mac).isSome →
      ∃ a, mac = MacAddress.short a) :
    buildMeasurements azel anchors devicePosition dsts =
      some (dsts.filterMap (measurementFor azel anchors devicePosition)) := by
  induction dsts with
  | nil => rfl
  | cons mac rest ih =>
    have hrest : ∀ m ∈ rest, (alookup anchors m).isSome →
        ∃ a, m = MacAddress.short a :=
      fun m hm h2 => hshort m (List.mem_cons_of_mem _ hm) h2
    cases hA : alookup anchors mac with
    | none =>
      rw [List.filterMap_cons_none]
      · simp only [buildMeasurements, hA]
        exact ih hrest
      · simp [measurementFor, hA]
    | some anchor =>
      obtain ⟨a, rfl⟩ := hshort mac (List.mem_cons_self _ _) (by rw [hA]; rfl)
      rw [List.filterMap_cons_some
        (show measurementFor azel anchors devicePosition (MacAddress.short a) =
          some (mkMeasurement a
            (relativeTriple azel devicePosition anchor.position)
            (relativeTriple azel anchor.position devicePosition)) by
          simp [measurementFor, hA])]
      simp only [buildMeasurements, hA, distAssertOk_true, if_true]
      rw [ih hrest]
      rfl

theorem measurementFor_fields (azel : AzEl) (anchors : List (MacAddress × Anchor))
    (devicePosition : Position) (mac : MacAddress)
    (m : ShortAddressTwoWayRangingMeasurement)
    (h : measurementFor azel anchors devicePosition mac = some m) :
    m.status = StatusCode.ok ∧ m.nlos = 0 ∧ m.slot_index = 0 ∧
    m.aoa_azimuth_fom = 100 ∧ m.aoa_elevation_fom = 100 ∧
    m.aoa_destination_azimuth_fom = 100 ∧ m.aoa_destination_elevation_fom = 100 := by
  unfold measurementFor at h
  cases hA : alookup anchors mac with
  | none => rw [hA] at h; cases h
  | some anchor =>
    rw [hA] at h
    cases mac with
    | short a =>
      simp only [] at h
      injection h with h2
      rw [← h2]
      exact ⟨rfl, rfl, rfl, rfl, rfl, rfl, rfl⟩
    | extend a => cases h

/-- Claim C5 (amended): for each destination MAC of a ranging session,
a short-address MAC that resolves to an anchor contributes a
`ShortAddressTwoWayRangingMeasurement` with status OK, `nlos = 0`,
`slot_index = 0` and all four FoM fields 100; a MAC that does not
resolve to an anchor — including the MAC of a live UCI device — is
omitted from the notification without error. (The hypothesis excludes
extended-address anchors, on which the source panics with
`unimplemented!()`.) -/
theorem c5_anchor_measurements (azel : AzEl) (anchors : List (MacAddress × Anchor))
    (devicePosition : Position) (dsts : List MacAddress)
    (hshort : ∀ mac ∈ dsts, (alookup anchors mac).isSome →
      ∃ a, mac = MacAddress.short a) :
    buildMeasurements azel anchors devicePosition dsts =
      some (dsts.filterMap (measurementFor azel anchors devicePosition)) ∧
    (∀ m ∈ dsts.filterMap (measurementFor azel anchors devicePosition),
      m.status = StatusCode.ok ∧ m.nlos = 0 ∧ m.slot_index = 0 ∧
      m.aoa_azimuth_fom = 100 ∧ m.aoa_elevation_fom = 100 ∧
      m.aoa_destination_azimuth_fom = 100 ∧ m.aoa_destination_elevation_fom = 100) ∧
    (∀ mac ∈ dsts, alookup anchors mac = none →
      measurementFor azel anchors devicePosition mac = none) := by
  refine ⟨buildMeasurements_eq_filterMap azel anchors devicePosition dsts hshort,
    ?_, ?_⟩
  · intro m hm
    obtain ⟨mac, _, hf⟩ := List.mem_filterMap.mp hm
    exact measurementFor_fields azel anchors devicePosition mac m hf
  · intro mac _ hA
    simp [measurementFor, hA]

/-- The anchor table for the C5 witness: one anchor at short MAC 0xBB. -/
def c5WitnessAnchors : List (MacAddress × Anchor) :=
  [(MacAddress.short 0xBB, ⟨MacAddress.short 0xBB, ⟨1000, 0, 0⟩⟩)]

/-- Claim C5 witness: with one anchor at 0xBB and destinations
`[0xBB, 7]`, the measurement list contains exactly the 0xBB measurement
(MAC 7 resolves to nothing and is omitted). -/
theorem c5_witness :
    buildMeasurements azelZero c5WitnessAnchors ⟨0, 0, 0⟩
        [MacAddress.short 0xBB, MacAddress.short 7] =
      some (List.filterMap (measurementFor azelZero c5WitnessAnchors ⟨0, 0, 0⟩)
        [MacAddress.short 0xBB, MacAddress.short 7]) ∧
    List.filterMap (measurementFor azelZero c5WitnessAnchors ⟨0, 0, 0⟩)
        [MacAddress.short 0xBB, MacAddress.short 7] =
      [mkMeasurement 0xBB (relativeTriple azelZero ⟨0, 0, 0⟩ ⟨1000, 0, 0⟩)
        (relativeTriple azelZero ⟨1000, 0, 0⟩ ⟨0, 0, 0⟩)] := by
  refine ⟨?_, rfl⟩
  exact (c5_anchor_measurements azelZero c5WitnessAnchors ⟨0, 0, 0⟩
    [MacAddress.short 0xBB, MacAddress.short 7]
    (by
      intro mac hm _
      rcases List.mem_cons.mp hm with rfl | hm2
      · exact ⟨0xBB, rfl⟩
      · rcases List.mem_cons.mp hm2 with rfl | hm3
        · exact ⟨7, rfl⟩
        · cases hm3)).1

/-- A session whose destination list holds the MAC of a live UCI device
(not an anchor). -/
def c5Session : Session :=
  { Session.default with
      state := .sessionStateActive
      id := 1
      dst_mac_addresses := [MacAddress.short 0xBB] }

/-- A world with device 0 ranging towards short MAC 0xBB, which is the
MAC of live UCI device 1; the anchor table is empty. -/
def c5Pica : Pica :=
  ⟨[(0, ⟨.short 1, ⟨0, 0, 0⟩, [(1, c5Session)]⟩),
    (1, ⟨.short 0xBB, ⟨1000, 0, 0⟩, []⟩)], [], 2⟩

/-- Claim C5 counterexample: short MAC 0xBB resolves to a live UCI
device (`get_category` says so), yet the emitted range-data notification
contains no measurement for it — the handler only consults the anchor
table, contradicting the claim that MACs of live UCI devices receive the
same treatment as anchors. -/
theorem c5_counterexample :
    get_category c5Pica (MacAddress.short 0xBB) = some Category.uci ∧
    ranging azelZero c5Pica 0 1 =
      some (incrementSequenceNumber c5Pica 0 1,
        Packet.shortMacTwoWayRangeDataNtf 0 1 0 0 []) :=
  ⟨rfl, rfl⟩

/-- Claim C7: the distance component of the relative-coordinate
computation is symmetric for all poses, so the condition asserted by
`assert!(local.0 == remote.0)` always holds and the neighbor-update
fan-out of `update_position` never hits an assertion panic. -/
theorem c7_relative_distance_symmetric :
    (∀ a b : Position, relativeDistance a b = relativeDistance b a ∧
      distAssertOk a b = true) ∧
    (∀ (azel : AzEl) (p : Pica) (mac : MacAddress) (position : Position),
      update_position azel p mac position ≠ none) := by
  have hne : ∀ (azel : AzEl) (mac : MacAddress) (position : Position)
      (category : Category) (l : List (MacAddress × Position)),
      neighborUpdateEvents azel mac position category l ≠ none := by
    intro azel mac position category l
    induction l with
    | nil => simp [neighborUpdateEvents]
    | cons e rest ih =>
      obtain ⟨dmac, dpos⟩ := e
      simp only [neighborUpdateEvents]
      by_cases h : mac = dmac
      · rw [if_pos h]
        exact ih
      · rw [if_neg h, if_pos (distAssertOk_true position dpos)]
        cases hrest : neighborUpdateEvents azel mac position category rest with
        | none => exact absurd hrest ih
        | some evs => simp
  constructor
  · intro a b
    exact ⟨relativeDistance_symm a b, distAssertOk_true a b⟩
  · intro azel p mac position
    unfold update_position
    cases hc : get_category p mac with
    | none => simp
    | some category =>
      cases h1 : neighborUpdateEvents azel mac position Category.uci
          (p.devices.map (fun e => (e.2.mac_address, e.2.position))) with
      | none =>
        exact absurd h1 (hne azel mac position Category.uci _)
      | some devEvents =>
        cases h2 : neighborUpdateEvents azel mac position Category.anchor
            (p.anchors.map (fun e => (e.2.mac_address, e.2.position))) with
        | none =>
          exact absurd h2 (hne azel mac position Category.anchor _)
        | some anchorEvents => simp

/-- Disjointness of the anchor MAC set and the live device MAC set. -/
def macsDisjoint (p : Pica) : Bool :=
  p.anchors.all (fun e => !anyDeviceMac p.devices e.2.mac_address)

theorem get_category_none (p : Pica) (mac : MacAddress)
    (h : get_category p mac = none) :
    (alookup p.anchors mac).isSome = false ∧ anyDeviceMac p.devices mac = false := by
  unfold get_category at h
  by_cases h1 : (alookup p.anchors mac).isSome
  · rw [if_pos h1] at h
    cases h
  · rw [if_neg h1] at h
    by_cases h2 : anyDeviceMac p.devices mac = true
    · rw [if_pos h2] at h
      cases h
    · exact ⟨by simpa using h1, by simpa using h2⟩

/-- Claim C8 (amended): `create_anchor` with a MAC already used by a live
UCI device or an existing anchor is rejected with `AddAnchorFailed` and
leaves the world unchanged; otherwise it inserts the anchor, emits one
`DeviceAdded` event and replies Ok — so anchor creation never breaks the
disjointness of anchor MACs and live device MACs (and its internal
insertion assertion never fires). The disjointness is an invariant of
anchor creation only: `connect` can still break it (see the
counterexample). -/
theorem c8_create_anchor (p : Pica) (mac : MacAddress) (position : Position) :
    ((get_category p mac).isSome →
      create_anchor p mac position =
        some (p, [], .error (.addAnchorFailed mac))) ∧
    (get_category p mac = none →
      create_anchor p mac position =
        some ({ p with anchors := p.anchors ++ [(mac, ⟨mac, position⟩)] },
          [PicaEvent.deviceAdded ⟨.anchor, mac, position⟩], .ok)) ∧
    create_anchor p mac position ≠ none ∧
    (∀ p2 evs st, create_anchor p mac position = some (p2, evs, st) →
      macsDisjoint p = true →
      macsDisjoint p2 = true ∧ p2.devices = p.devices ∧ p2.counter = p.counter) := by
  have hrej : (get_category p mac).isSome →
      create_anchor p mac position = some (p, [], .error (.addAnchorFailed mac)) := by
    intro hc
    simp [create_anchor, hc]
  have hins : get_category p mac = none →
      create_anchor p mac position =
        some ({ p with anchors := p.anchors ++ [(mac, ⟨mac, position⟩)] },
          [PicaEvent.deviceAdded ⟨.anchor, mac, position⟩], .ok) := by
    intro hc
    obtain ⟨h1, _⟩ := get_category_none p mac hc
    simp [create_anchor, hc, h1]
  refine ⟨hrej, hins, ?_, ?_⟩
  · cases hc : get_category p mac with
    | none => rw [hins hc]; simp
    | some cat => rw [hrej (by rw [hc]; rfl)]; simp
  · intro p2 evs st hca hdisj
    cases hc : get_category p mac with
    | some cat =>
      rw [hrej (by rw [hc]; rfl)] at hca
      injection hca with h
      injection h with ha hb
      injection hb with hb1 hb2
      subst ha
      exact ⟨hdisj, rfl, rfl⟩
    | none =>
      obtain ⟨h1, h2⟩ := get_category_none p mac hc
      rw [hins hc] at hca
      injection hca with h
      injection h with ha hb
      subst ha
      refine ⟨?_, rfl, rfl⟩
      unfold macsDisjoint at hdisj ⊢
      simp only [List.all_append, List.all_cons, List.all_nil]
      simp [hdisj, h2]

/-- A world holding one anchor at short MAC 5. -/
def c8WPica : Pica :=
  ⟨[], [(MacAddress.short 5, ⟨MacAddress.short 5, ⟨0, 0, 0⟩⟩)], 0⟩

/-- Claim C8 witness: creating an anchor at a fresh MAC succeeds and
preserves disjointness; creating it again is rejected with
`AddAnchorFailed` and changes nothing. -/
theorem c8_witness :
    create_anchor picaEmpty (MacAddress.short 5) ⟨0, 0, 0⟩ =
      some ({ picaEmpty with
          anchors := picaEmpty.anchors ++
            [(MacAddress.short 5, ⟨MacAddress.short 5, ⟨0, 0, 0⟩⟩)] },
        [PicaEvent.deviceAdded ⟨Category.anchor, MacAddress.short 5, ⟨0, 0, 0⟩⟩],
        PicaCommandStatus.ok) ∧
    create_anchor c8WPica (MacAddress.short 5) ⟨1, 1, 1⟩ =
      some (c8WPica, [],
        PicaCommandStatus.error (.addAnchorFailed (MacAddress.short 5))) ∧
    macsDisjoint { picaEmpty with
        anchors := picaEmpty.anchors ++
          [(MacAddress.short 5, ⟨MacAddress.short 5, ⟨0, 0, 0⟩⟩)] } = true := by
  have h2 := (c8_create_anchor picaEmpty (MacAddress.short 5) ⟨0, 0, 0⟩).2.1 rfl
  refine ⟨h2, (c8_create_anchor c8WPica (MacAddress.short 5) ⟨1, 1, 1⟩).1 (by rfl), ?_⟩
  exact ((c8_create_anchor picaEmpty (MacAddress.short 5) ⟨0, 0, 0⟩).2.2.2 _ _ _ h2
    rfl).1

/-- The world after creating an anchor at short MAC 0 in the empty
world. -/
def c8Pica1 : Pica :=
  ((create_anchor picaEmpty (MacAddress.short 0) ⟨0, 0, 0⟩).map (fun r => r.1)).getD
    picaEmpty

/-- The world after a device then connects: its handle-derived default
MAC is short MAC 0, colliding with the anchor. -/
def c8Pica2 : Pica :=
  (connect c8Pica1).1

/-- Claim C8 counterexample: after a legal run (create anchor at short
MAC 0, then a TCP connect), the anchor MAC set is NOT disjoint from the
live device MAC set — `connect` assigns the handle-derived default MAC
0 to the new device without checking the anchor table, so the "at all
times" disjointness asserted by the claim fails. -/
theorem c8_counterexample :
    macsDisjoint c8Pica1 = true ∧
    (connect c8Pica1).2 =
      [PicaEvent.deviceAdded ⟨Category.uci, MacAddress.short 0, ⟨0, 0, 0⟩⟩] ∧
    macsDisjoint c8Pica2 = false :=
  ⟨rfl, rfl, rfl⟩

/-- The session-management commands claim C6 ranges over. -/
inductive SessionCmd where
  | init (session_id : Nat) (session_type : SessionType)
  | deinit (session_id : Nat)
  | setAppConfig (session_id : Nat)
deriving DecidableEq, Repr

/-- The session id a command refers to. -/
def SessionCmd.sessionId : SessionCmd → Nat
  | .init session_id _ => session_id
  | .deinit session_id => session_id
  | .setAppConfig session_id => session_id

/-- Dispatch of one session-management command to its handler. -/
def stepCmd (dev : Device) : SessionCmd → Device × List Packet
  | .init session_id session_type => session_init dev session_id session_type
  | .deinit session_id => session_deinit dev session_id
  | .setAppConfig session_id => session_set_app_config dev session_id

/-- The operation status of one session-management command: the
`add_session` status for SESSION_INIT, the removal status for
SESSION_DEINIT, and the computed (not wire) status for
SESSION_SET_APP_CONFIG. -/
def stepStatus (dev : Device) : SessionCmd → StatusCode
  | .init session_id session_type =>
      (dev.add_session (mkInitSession session_id session_type)).2
  | .deinit session_id =>
      match alookup dev.sessions session_id with
      | some _ => .ok
      | none => .sessionNotExist
  | .setAppConfig session_id => (sessionSetAppConfigOutcome dev session_id).1

/-- The session state an accepted command notifies. -/
def cmdNtfState : SessionCmd → SessionState
  | .init _ _ => .sessionStateInit
  | .deinit _ => .sessionStateDeinit
  | .setAppConfig _ => .sessionStateIdle

/-- Whether a packet is a (session-management) response. -/
def isResponse : Packet → Bool
  | .sessionInitRsp _ => true
  | .sessionDeinitRsp _ => true
  | .sessionSetAppConfigRsp _ _ => true
  | _ => false

/-- Sequential processing of a list of session-management commands,
collecting all enqueued packets in order. -/
def runCmds (dev : Device) : List SessionCmd → Device × List Packet
  | [] => (dev, [])
  | c :: cs =>
      let r1 := stepCmd dev c
      let r2 := runCmds r1.1 cs
      (r2.1, r1.2 ++ r2.2)

/-- The session states notified for one session id, in emission order. -/
def notifiedStates (sid : Nat) : List Packet → List SessionState :=
  List.filterMap (fun pkt =>
    match pkt with
    | .sessionStatusNtf session_id session_state _ =>
        if session_id = sid then some session_state else none
    | _ => none)

/-- One edge of the session state machine of the spec
(`Deinit -init-> Init -set_app_config-> Idle -start-> Active -stop->
Idle`, with `Deinit` reachable from every live state). -/
def sessionMachineStep : SessionState → SessionState → Bool
  | .sessionStateDeinit, .sessionStateInit => true
  | .sessionStateInit, .sessionStateIdle => true
  | .sessionStateIdle, .sessionStateActive => true
  | .sessionStateActive, .sessionStateIdle => true
  | .sessionStateInit, .sessionStateDeinit => true
  | .sessionStateIdle, .sessionStateDeinit => true
  | .sessionStateActive, .sessionStateDeinit => true
  | _, _ => false

/-- Whether state `s` may be notified after the previously notified
state `last` (a fresh session id must first be notified `Init`). -/
def okAfter : Option SessionState → SessionState → Bool
  | none, s => s == .sessionStateInit
  | some t, s => sessionMachineStep t s

/-- The notified-state sequence is a valid path of the session state
machine, starting after `last`. -/
def pathFrom : Option SessionState → List SessionState → Bool
  | _, [] => true
  | last, s :: rest => okAfter last s && pathFrom (some s) rest

/-- The last notified state after appending `states` to a history ending
in `last`. -/
def updLast (last : Option SessionState) : List SessionState → Option SessionState
  | [] => last
  | s :: rest => updLast (some s) rest

theorem notifiedStates_append (sid : Nat) (l1 l2 : List Packet) :
    notifiedStates sid (l1 ++ l2) = notifiedStates sid l1 ++ notifiedStates sid l2 := by
  simp [notifiedStates]

theorem pathFrom_append (xs ys : List SessionState) (last : Option SessionState) :
    pathFrom last (xs ++ ys) = (pathFrom last xs && pathFrom (updLast last xs) ys) := by
  induction xs generalizing last with
  | nil => simp [pathFrom, updLast]
  | cons s rest ih => simp [pathFrom, updLast, ih, Bool.and_assoc]

/-- Relation between the session table entry for `sid` and the last
notified state for `sid`: only states `Init` and `Idle` are reachable in
the table under the three session-management commands, each matching the
last notification; an absent session has either never been notified or
was last notified `Deinit`. -/
def sidInv (sid : Nat) (dev : Device) (last : Option SessionState) : Prop :=
  match alookup dev.sessions sid with
  | none => last = none ∨ last = some .sessionStateDeinit
  | some s =>
      (s.state = .sessionStateInit ∧ last = some .sessionStateInit) ∨
      (s.state = .sessionStateIdle ∧ last = some .sessionStateIdle)

theorem alookup_append_single_ne {κ α : Type} [DecidableEq κ] (l : List (κ × α))
    (k2 k : κ) (v : α) (h : k2 ≠ k) : alookup (l ++ [(k2, v)]) k = alookup l k := by
  rw [alookup_append]
  cases hl : alookup l k with
  | some w => simp [hl]
  | none => simp [hl, alookup, h]

theorem step_preserves (sid : Nat) (dev : Device) (c : SessionCmd)
    (last : Option SessionState) (hinv : sidInv sid dev last) :
    pathFrom last (notifiedStates sid (stepCmd dev c).2) = true ∧
    sidInv sid (stepCmd dev c).1
      (updLast last (notifiedStates sid (stepCmd dev c).2)) := by
  cases c with
  | init sid2 ty =>
    by_cases hdup : (alookup dev.sessions sid2).isSome
    · have hstep : stepCmd dev (.init sid2 ty) =
          (dev, [Packet.sessionInitRsp .sessionDuplicate]) := by
        simp [stepCmd, session_init, Device.add_session, mkInitSession, hdup]
      rw [hstep]
      exact ⟨rfl, hinv⟩
    · by_cases hfull : dev.sessions.length ≥ 255
      · have hstep : stepCmd dev (.init sid2 ty) =
            (dev, [Packet.sessionInitRsp .maxSessionsExceeded]) := by
          simp [stepCmd, session_init, Device.add_session, mkInitSession, hdup, hfull]
        rw [hstep]
        exact ⟨rfl, hinv⟩
      · have hlook : alookup dev.sessions sid2 = none := by
          cases hl : alookup dev.sessions sid2 with
          | none => rfl
          | some s => rw [hl] at hdup; simp at hdup
        have hstep : stepCmd dev (.init sid2 ty) =
            ({ dev with sessions := dev.sessions ++ [(sid2, mkInitSession sid2 ty)] },
              [Packet.sessionInitRsp .ok,
                Packet.sessionStatusNtf sid2 .sessionStateInit
                  .stateChangeWithSessionManagementCommands]) := by
          simp [stepCmd, session_init, Device.add_session, mkInitSession, hdup, hfull]
        rw [hstep]
        by_cases hsid : sid2 = sid
        · subst hsid
          have hinv2 : last = none ∨ last = some .sessionStateDeinit := by
            unfold sidInv at hinv
            rw [hlook] at hinv
            exact hinv
          constructor
          · rcases hinv2 with rfl | rfl <;>
              simp [notifiedStates, pathFrom, okAfter, sessionMachineStep]
          · unfold sidInv
            dsimp only
            rw [alookup_append, hlook]
            simp only [Option.isSome_none, Bool.false_eq_true, if_false]
            simp only [alookup, if_pos rfl]
            left
            refine ⟨rfl, ?_⟩
            simp [notifiedStates, updLast]
        · constructor
          · simp [notifiedStates, hsid, pathFrom]
          · unfold sidInv at hinv ⊢
            dsimp only
            rw [alookup_append_single_ne dev.sessions sid2 sid _ hsid]
            simpa [notifiedStates, hsid, updLast] using hinv
  | deinit sid2 =>
    cases hl : alookup dev.sessions sid2 with
    | none =>
      have hstep : stepCmd dev (.deinit sid2) =
          (dev, [Packet.sessionDeinitRsp .sessionNotExist]) := by
        simp [stepCmd, session_deinit, hl]
      rw [hstep]
      exact ⟨rfl, hinv⟩
    | some s =>
      have hstep : stepCmd dev (.deinit sid2) =
          ({ dev with sessions := aremove dev.sessions sid2 },
            [Packet.sessionDeinitRsp .ok,
              Packet.sessionStatusNtf sid2 .sessionStateDeinit
                .stateChangeWithSessionManagementCommands]) := by
        simp [stepCmd, session_deinit, hl]
      rw [hstep]
      by_cases hsid : sid2 = sid
      · subst hsid
        have hlast : last = some .sessionStateInit ∨ last = some .sessionStateIdle := by
          unfold sidInv at hinv
          rw [hl] at hinv
          rcases hinv with ⟨_, h⟩ | ⟨_, h⟩
          · exact Or.inl h
          · exact Or.inr h
        constructor
        · rcases hlast with rfl | rfl <;>
            simp [notifiedStates, pathFrom, okAfter, sessionMachineStep]
        · unfold sidInv
          dsimp only
          rw [alookup_aremove_self]
          right
          simp [notifiedStates, updLast]
      · constructor
        · simp [notifiedStates, hsid, pathFrom]
        · unfold sidInv at hinv ⊢
          dsimp only
          rw [alookup_aremove_ne dev.sessions sid2 sid (fun h => hsid h.symm)]
          simpa [notifiedStates, hsid, updLast] using hinv
  | setAppConfig sid2 =>
    cases hl : alookup dev.sessions sid2 with
    | none =>
      have hstep : stepCmd dev (.setAppConfig sid2) =
          (dev, [Packet.sessionSetAppConfigRsp .ok []]) := by
        simp [stepCmd, session_set_app_config, sessionSetAppConfigOutcome, hl]
      rw [hstep]
      exact ⟨rfl, hinv⟩
    | some s =>
      by_cases hst : s.state = SessionState.sessionStateInit
      · have hstep : stepCmd dev (.setAppConfig sid2) =
            ({ dev with sessions := aupdate dev.sessions sid2 (fun s0 => { s0 with state := .sessionStateIdle }) },
              [Packet.sessionSetAppConfigRsp .ok [],
                Packet.sessionStatusNtf sid2 .sessionStateIdle
                  .stateChangeWithSessionManagementCommands]) := by
          simp [stepCmd, session_set_app_config, sessionSetAppConfigOutcome, hl, hst]
        rw [hstep]
        by_cases hsid : sid2 = sid
        · subst hsid
          have hlast : last = some .sessionStateInit := by
            unfold sidInv at hinv
            rw [hl] at hinv
            rcases hinv with ⟨_, h⟩ | ⟨hbad, _⟩
            · exact h
            · rw [hst] at hbad
              simp at hbad
          subst hlast
          constructor
          · simp [notifiedStates, pathFrom, okAfter, sessionMachineStep]
          · unfold sidInv
            dsimp only
            rw [alookup_aupdate_self, hl]
            simp only [Option.map_some']
            right
            constructor
            · simp
            · simp [notifiedStates, updLast]
        · constructor
          · simp [notifiedStates, hsid, pathFrom]
          · unfold sidInv at hinv ⊢
            dsimp only
            rw [alookup_aupdate_ne dev.sessions sid2 sid _ (fun h => hsid h.symm)]
            simpa [notifiedStates, hsid, updLast] using hinv
      · have hstep : stepCmd dev (.setAppConfig sid2) =
            (dev, [Packet.sessionSetAppConfigRsp .ok []]) := by
          simp [stepCmd, session_set_app_config, sessionSetAppConfigOutcome, hl, hst]
        rw [hstep]
        exact ⟨rfl, hinv⟩

theorem run_path (sid : Nat) (cmds : List SessionCmd) : ∀ (dev : Device)
    (last : Option SessionState), sidInv sid dev last →
    pathFrom last (notifiedStates sid (runCmds dev cmds).2) = true := by
  induction cmds with
  | nil =>
    intro dev last _
    rfl
  | cons c cs ih =>
    intro dev last hinv
    obtain ⟨h1, h2⟩ := step_preserves sid dev c last hinv
    have h3 := ih (stepCmd dev c).1 _ h2
    have hrun : (runCmds dev (c :: cs)).2 =
        (stepCmd dev c).2 ++ (runCmds (stepCmd dev c).1 cs).2 := rfl
    rw [hrun, notifiedStates_append, pathFrom_append, h1, h3]
    rfl

/-- Claim C6: every session-management command (SESSION_INIT,
SESSION_DEINIT, SESSION_SET_APP_CONFIG) enqueues its response first and
a `SessionStatusNotification(session_id, new_state,
StateChangeWithSessionManagementCommands)` after it exactly when the
operation status is OK (never on a rejected command); consequently, for
any sequence of these commands on a fresh device, the notified states of
each session id form a valid path (starting at `Init`) through the
session state machine. -/
theorem c6_session_status_notifications :
    (∀ (dev : Device) (c : SessionCmd),
      ∃ rsp, isResponse rsp = true ∧
        (stepCmd dev c).2 = rsp ::
          (if stepStatus dev c = StatusCode.ok then
            [Packet.sessionStatusNtf c.sessionId (cmdNtfState c)
              ReasonCode.stateChangeWithSessionManagementCommands]
          else [])) ∧
    (∀ (handle : Nat) (cmds : List SessionCmd) (sid : Nat),
      pathFrom none (notifiedStates sid (runCmds (Device.new handle) cmds).2) = true) := by
  constructor
  · intro dev c
    cases c with
    | init sid ty =>
      refine ⟨Packet.sessionInitRsp (dev.add_session (mkInitSession sid ty)).2, rfl, ?_⟩
      rfl
    | deinit sid =>
      cases hl : alookup dev.sessions sid with
      | some s =>
        refine ⟨Packet.sessionDeinitRsp .ok, rfl, ?_⟩
        simp [stepCmd, session_deinit, stepStatus, hl, cmdNtfState, SessionCmd.sessionId]
      | none =>
        refine ⟨Packet.sessionDeinitRsp .sessionNotExist, rfl, ?_⟩
        simp [stepCmd, session_deinit, stepStatus, hl]
    | setAppConfig sid =>
      refine ⟨Packet.sessionSetAppConfigRsp .ok [], rfl, ?_⟩
      cases hl : alookup dev.sessions sid with
      | none =>
        simp [stepCmd, session_set_app_config, stepStatus,
          sessionSetAppConfigOutcome, hl]
      | some s =>
        by_cases hst : s.state = SessionState.sessionStateInit
        · simp [stepCmd, session_set_app_config, stepStatus,
            sessionSetAppConfigOutcome, hl, hst, cmdNtfState, SessionCmd.sessionId]
        · simp [stepCmd, session_set_app_config, stepStatus,
            sessionSetAppConfigOutcome, hl, hst]
  · intro handle cmds sid
    refine run_path sid cmds (Device.new handle) none ?_
    unfold sidInv
    exact Or.inl rfl

/-- Claim C7 witness: distance symmetry and the absence of assertion
panics, evaluated at concrete inputs. -/
theorem c7_witness :
    relativeDistance ⟨0, 0, 0⟩ ⟨3, 4, 0⟩ = relativeDistance ⟨3, 4, 0⟩ ⟨0, 0, 0⟩ ∧
    distAssertOk ⟨0, 0, 0⟩ ⟨3, 4, 0⟩ = true ∧
    update_position azelZero picaEmpty (MacAddress.short 1) ⟨0, 0, 0⟩ ≠ none := by
  refine ⟨(c7_relative_distance_symmetric.1 ⟨0, 0, 0⟩ ⟨3, 4, 0⟩).1,
    (c7_relative_distance_symmetric.1 ⟨0, 0, 0⟩ ⟨3, 4, 0⟩).2,
    c7_relative_distance_symmetric.2 azelZero picaEmpty (MacAddress.short 1) ⟨0, 0, 0⟩⟩
